import Mathlib

/-!
Shallow embedding of the crashdump_viewer_cli parsing core
(src/parser/types.rs and src/parser/parser.rs) together with proofs
about the claims of the specification.

Modelling conventions:
  machine integers i64/i32 are Int with explicit range checks where the
  source checks or can overflow; usize is Nat (overflow is not modelled,
  inputs of interest are tiny); Rust String/str is Lean String, operated
  on through its underlying List Char (the dumps are ASCII, so byte
  indexing and char indexing agree); Rust HashMap is an association list
  whose insert replaces the value of an existing key in place (iteration
  order of a HashMap is arbitrary, nothing proved here depends on the
  order of the association list except where a claim is about order);
  a Rust function that can panic is modelled with RResult (ok / err /
  panic) or Option (some / none = panicked) as noted at each definition.
-/

namespace CDV

/-- Result of a Rust call: Ok, Err, or a panic (unwrap/index failure). -/
inductive RResult (α : Type) where
  | ok (a : α)
  | err (e : String)
  | panic
  deriving DecidableEq, Repr

/-- Rust char::is_whitespace restricted to the ASCII range that occurs in dumps. -/
def isRustWS (c : Char) : Bool :=
  c = ' ' || c = '\t' || c = '\n' || c = '\r' || c = '\x0b' || c = '\x0c'

/-- Rust str::trim. -/
def rustTrim (s : String) : String :=
  (((s.data.dropWhile isRustWS).reverse.dropWhile isRustWS).reverse).asString

/-- Rust str::starts_with. -/
def rsStartsWith (s pat : String) : Bool :=
  pat.data.isPrefixOf s.data

/-- Index of the first occurrence of a char, as in Iterator::position. -/
def charIndexOf (c : Char) : List Char → Option Nat
  | [] => none
  | x :: xs => if x = c then some 0 else (charIndexOf c xs).map (· + 1)

/-- Rust str::split on a single char: splits at every occurrence,
always returns at least one (possibly empty) piece. -/
def chSplitAll (c : Char) : List Char → List (List Char)
  | [] => [[]]
  | x :: xs =>
    if x = c then [] :: chSplitAll c xs
    else
      match chSplitAll c xs with
      | [] => [[x]]
      | r :: rs => (x :: r) :: rs

/-- Split at the leftmost occurrence of the pattern, as in splitn(2, pat):
none when the pattern does not occur. -/
def splitFirstL (pat : List Char) : List Char → Option (List Char × List Char)
  | [] => if pat.isEmpty then some ([], []) else none
  | x :: xs =>
    if pat.isPrefixOf (x :: xs) then some ([], (x :: xs).drop pat.length)
    else (splitFirstL pat xs).map (fun p => (x :: p.1, p.2))

/-- Rust splitn(2, pat) on strings, none when only one piece results. -/
def splitn2Str (s pat : String) : Option (String × String) :=
  (splitFirstL pat.data s.data).map (fun p => (p.1.asString, p.2.asString))

/-- Fuel-driven worker for splitAllL; the fuel never runs out for a
nonempty pattern because every step consumes at least one char. -/
def splitAllGo (pat : List Char) : Nat → List Char → List (List Char)
  | 0, l => [l]
  | fuel + 1, l =>
    match splitFirstL pat l with
    | some (a, b) => a :: splitAllGo pat fuel b
    | none => [l]

/-- Rust str::split on a multi-char pattern (all occurrences). -/
def splitAllL (pat : List Char) (l : List Char) : List (List Char) :=
  if pat.isEmpty then [l] else splitAllGo pat (l.length + 1) l

/-- Rust str::lines: split on newline, drop a final empty piece produced
by a trailing newline, strip one trailing carriage return per line. -/
def rustLines (s : String) : List String :=
  if s.data.isEmpty then []
  else
    let parts := chSplitAll '\n' s.data
    let parts := if parts.getLast? = some [] then parts.dropLast else parts
    parts.map (fun l => (if l.getLast? = some '\r' then l.dropLast else l).asString)

/-- Association list lookup (the model of HashMap::get). -/
def alookup {κ α : Type} [DecidableEq κ] : List (κ × α) → κ → Option α
  | [], _ => none
  | (k, v) :: rest, k' => if k = k' then some v else alookup rest k'

/-- Association list insert replacing an existing binding in place
(the model of HashMap::insert; iteration order is not meaningful). -/
def hmInsert {κ α : Type} [DecidableEq κ] : List (κ × α) → κ → α → List (κ × α)
  | [], k, v => [(k, v)]
  | (k', v') :: rest, k, v =>
    if k' = k then (k', v) :: rest else (k', v') :: hmInsert rest k v

/-- Decimal digit accumulation; none at the first non-digit. -/
def decValGo : List Char → Nat → Option Nat
  | [], acc => some acc
  | c :: cs, acc =>
    if c.isDigit then decValGo cs (acc * 10 + (c.toNat - 48)) else none

/-- Value of a nonempty all-decimal-digit char list. -/
def decVal (l : List Char) : Option Nat :=
  if l.isEmpty then none else decValGo l 0

/-- Value of a hex digit, case-insensitive. -/
def hexDigit? (c : Char) : Option Nat :=
  if '0' ≤ c ∧ c ≤ '9' then some (c.toNat - 48)
  else if 'a' ≤ c ∧ c ≤ 'f' then some (c.toNat - 97 + 10)
  else if 'A' ≤ c ∧ c ≤ 'F' then some (c.toNat - 65 + 10)
  else none

def hexValGo : List Char → Nat → Option Nat
  | [], acc => some acc
  | c :: cs, acc =>
    match hexDigit? c with
    | some d => hexValGo cs (acc * 16 + d)
    | none => none

/-- Rust usize::from_str_radix(s, 16): optional leading plus sign, then
one or more hex digits; error strings as displayed by ParseIntError.
usize overflow is not modelled. -/
def parseHexR (s : String) : RResult Nat :=
  let l := match s.data with
    | '+' :: rest => rest
    | l => l
  if l.isEmpty then .err "cannot parse integer from empty string"
  else
    match hexValGo l 0 with
    | some n => .ok n
    | none => .err "invalid digit found in string"

/-- Rust str::parse::<i64>() with ParseIntError display strings. -/
def parseI64R (s : String) : RResult Int :=
  let (sign, digits) : Int × List Char := match s.data with
    | '+' :: rest => (1, rest)
    | '-' :: rest => (-1, rest)
    | l => (1, l)
  if digits.isEmpty then .err "cannot parse integer from empty string"
  else
    match decVal digits with
    | none => .err "invalid digit found in string"
    | some n =>
      let v : Int := sign * n
      if v < -(2 ^ 63) then .err "number too small to fit in target type"
      else if (2 ^ 63 - 1 : Int) < v then .err "number too large to fit in target type"
      else .ok v

/-- Rust str::parse::<i64>().ok(). -/
def parseI64 (s : String) : Option Int :=
  match parseI64R s with
  | .ok v => some v
  | _ => none

/-- Lowercase hex rendering of a Nat, as the Rust format spec x. -/
def toHexLower (n : Nat) : String :=
  (Nat.toDigits 16 n).asString

/-- Uppercase hex rendering of a Nat, as the Rust format spec X. -/
def toHexUpper (n : Nat) : String :=
  ((Nat.toDigits 16 n).map Char.toUpper).asString

/-- Rust slice join / itertools join over ", " and friends: empty pieces
contribute to the joined string. -/
def rsIntercalate (sep : String) : List String → String
  | [] => ""
  | [x] => x
  | x :: xs => x ++ sep ++ rsIntercalate sep xs

/-- Number of occurrences of a nonempty pattern in a string (overlapping
occurrences counted; the patterns used here cannot overlap). -/
def countSubstrGo (pat : List Char) : List Char → Nat
  | [] => if pat.isPrefixOf ([] : List Char) then 1 else 0
  | x :: xs => (if pat.isPrefixOf (x :: xs) then 1 else 0) + countSubstrGo pat xs

def countSubstr (s pat : String) : Nat :=
  countSubstrGo pat.data s.data

/-! Section tags (types.rs). -/

def TAG_PREAMBLE : String := "erl_crash_dump"
def TAG_ABORT : String := "abort"
def TAG_ALLOCATED_AREAS : String := "allocated_areas"
def TAG_ALLOCATOR : String := "allocator"
def TAG_ATOMS : String := "atoms"
def TAG_BINARY : String := "binary"
def TAG_DIRTY_CPU_SCHEDULER : String := "dirty_cpu_scheduler"
def TAG_DIRTY_CPU_RUN_QUEUE : String := "dirty_cpu_run_queue"
def TAG_DIRTY_IO_SCHEDULER : String := "dirty_io_scheduler"
def TAG_DIRTY_IO_RUN_QUEUE : String := "dirty_io_run_queue"
def TAG_ENDE : String := "ende"
def TAG_ERL_CRASH_DUMP : String := "erl_crash_dump"
def TAG_ETS : String := "ets"
def TAG_FUN : String := "fun"
def TAG_HASH_TABLE : String := "hash_table"
def TAG_HIDDEN_NODE : String := "hidden_node"
def TAG_INDEX_TABLE : String := "index_table"
def TAG_INSTR_DATA : String := "instr_data"
def TAG_INTERNAL_ETS : String := "internal_ets"
def TAG_LITERALS : String := "literals"
def TAG_LOADED_MODULES : String := "loaded_modules"
def TAG_MEMORY : String := "memory"
def TAG_MEMORY_MAP : String := "memory_map"
def TAG_MEMORY_STATUS : String := "memory_status"
def TAG_MOD : String := "mod"
def TAG_NO_DISTRIBUTION : String := "no_distribution"
def TAG_NODE : String := "node"
def TAG_NOT_CONNECTED : String := "not_connected"
def TAG_OLD_INSTR_DATA : String := "old_instr_data"
def TAG_PERSISTENT_TERMS : String := "persistent_terms"
def TAG_PORT : String := "port"
def TAG_PROC : String := "proc"
def TAG_PROC_DICTIONARY : String := "proc_dictionary"
def TAG_PROC_HEAP : String := "proc_heap"
def TAG_PROC_MESSAGES : String := "proc_messages"
def TAG_PROC_STACK : String := "proc_stack"
def TAG_SCHEDULER : String := "scheduler"
def TAG_TIMER : String := "timer"
def TAG_VISIBLE_NODE : String := "visible_node"
def TAG_END : String := "end"

/-- Section tags, enum Tag of types.rs. -/
inductive Tag where
  | Preamble
  | Abort
  | AllocatedAreas
  | Allocator
  | Atoms
  | Binary
  | DirtyCpuScheduler
  | DirtyCpuRunQueue
  | DirtyIoScheduler
  | DirtyIoRunQueue
  | Ende
  | ErlCrashDump
  | Ets
  | Fun
  | HashTable
  | HiddenNode
  | IndexTable
  | InstrData
  | InternalEts
  | Literals
  | LoadedModules
  | Memory
  | MemoryMap
  | MemoryStatus
  | Mod
  | NoDistribution
  | Node
  | NotConnected
  | OldInstrData
  | PersistentTerms
  | Port
  | Proc
  | ProcDictionary
  | ProcHeap
  | ProcMessages
  | ProcStack
  | Scheduler
  | Timer
  | VisibleNode
  | End
  deriving DecidableEq, Repr

/-- String produced for a Tag by the derived Debug formatter. -/
def tagDebugStr : Tag → String
  | .Preamble => "Preamble"
  | .Abort => "Abort"
  | .AllocatedAreas => "AllocatedAreas"
  | .Allocator => "Allocator"
  | .Atoms => "Atoms"
  | .Binary => "Binary"
  | .DirtyCpuScheduler => "DirtyCpuScheduler"
  | .DirtyCpuRunQueue => "DirtyCpuRunQueue"
  | .DirtyIoScheduler => "DirtyIoScheduler"
  | .DirtyIoRunQueue => "DirtyIoRunQueue"
  | .Ende => "Ende"
  | .ErlCrashDump => "ErlCrashDump"
  | .Ets => "Ets"
  | .Fun => "Fun"
  | .HashTable => "HashTable"
  | .HiddenNode => "HiddenNode"
  | .IndexTable => "IndexTable"
  | .InstrData => "InstrData"
  | .InternalEts => "InternalEts"
  | .Literals => "Literals"
  | .LoadedModules => "LoadedModules"
  | .Memory => "Memory"
  | .MemoryMap => "MemoryMap"
  | .MemoryStatus => "MemoryStatus"
  | .Mod => "Mod"
  | .NoDistribution => "NoDistribution"
  | .Node => "Node"
  | .NotConnected => "NotConnected"
  | .OldInstrData => "OldInstrData"
  | .PersistentTerms => "PersistentTerms"
  | .Port => "Port"
  | .Proc => "Proc"
  | .ProcDictionary => "ProcDictionary"
  | .ProcHeap => "ProcHeap"
  | .ProcMessages => "ProcMessages"
  | .ProcStack => "ProcStack"
  | .Scheduler => "Scheduler"
  | .Timer => "Timer"
  | .VisibleNode => "VisibleNode"
  | .End => "End"

/-- Function string_tag_to_enum of types.rs: the guard chain mapping a
tag string to the enum. The Rust catch-all arm executes the unreachable
macro, that is a panic, modelled as none. The first matching guard wins,
so the string of TAG_ERL_CRASH_DUMP (equal to TAG_PREAMBLE) maps to
Tag.Preamble. -/
def string_tag_to_enum (tag : String) : Option Tag :=
  if tag = TAG_PREAMBLE then some .Preamble
  else if tag = TAG_ABORT then some .Abort
  else if tag = TAG_ALLOCATED_AREAS then some .AllocatedAreas
  else if tag = TAG_ALLOCATOR then some .Allocator
  else if tag = TAG_ATOMS then some .Atoms
  else if tag = TAG_BINARY then some .Binary
  else if tag = TAG_DIRTY_CPU_SCHEDULER then some .DirtyCpuScheduler
  else if tag = TAG_DIRTY_CPU_RUN_QUEUE then some .DirtyCpuRunQueue
  else if tag = TAG_DIRTY_IO_SCHEDULER then some .DirtyIoScheduler
  else if tag = TAG_DIRTY_IO_RUN_QUEUE then some .DirtyIoRunQueue
  else if tag = TAG_ENDE then some .Ende
  else if tag = TAG_ERL_CRASH_DUMP then some .ErlCrashDump
  else if tag = TAG_ETS then some .Ets
  else if tag = TAG_FUN then some .Fun
  else if tag = TAG_HASH_TABLE then some .HashTable
  else if tag = TAG_HIDDEN_NODE then some .HiddenNode
  else if tag = TAG_INDEX_TABLE then some .IndexTable
  else if tag = TAG_INSTR_DATA then some .InstrData
  else if tag = TAG_INTERNAL_ETS then some .InternalEts
  else if tag = TAG_LITERALS then some .Literals
  else if tag = TAG_LOADED_MODULES then some .LoadedModules
  else if tag = TAG_MEMORY then some .Memory
  else if tag = TAG_MEMORY_MAP then some .MemoryMap
  else if tag = TAG_MEMORY_STATUS then some .MemoryStatus
  else if tag = TAG_MOD then some .Mod
  else if tag = TAG_NO_DISTRIBUTION then some .NoDistribution
  else if tag = TAG_NODE then some .Node
  else if tag = TAG_NOT_CONNECTED then some .NotConnected
  else if tag = TAG_OLD_INSTR_DATA then some .OldInstrData
  else if tag = TAG_PERSISTENT_TERMS then some .PersistentTerms
  else if tag = TAG_PORT then some .Port
  else if tag = TAG_PROC then some .Proc
  else if tag = TAG_PROC_DICTIONARY then some .ProcDictionary
  else if tag = TAG_PROC_HEAP then some .ProcHeap
  else if tag = TAG_PROC_MESSAGES then some .ProcMessages
  else if tag = TAG_PROC_STACK then some .ProcStack
  else if tag = TAG_SCHEDULER then some .Scheduler
  else if tag = TAG_TIMER then some .Timer
  else if tag = TAG_VISIBLE_NODE then some .VisibleNode
  else if tag = TAG_END then some .End
  else none

/-- Struct GenericSection of types.rs. The kv HashMap named data is an
association list here (insertions replace in place). -/
structure GenericSection where
  tag : String
  id : Option String
  data : List (String × String)
  raw_lines : List String
  deriving DecidableEq, Repr

/-- FromStr for GenericSection (types.rs): header line, then either all
raw lines (proc_stack) or a kv split on the first colon-space. -/
def GenericSection.fromStr (s : String) : Except String GenericSection :=
  match rustLines s with
  | [] => .error "Missing header line"
  | headerLine :: rest =>
    if !(rsStartsWith headerLine "=") then .error "Invalid header format"
    else
      let headerParts : List String :=
        (chSplitAll ':' (headerLine.data.drop 1)).map List.asString
      let tag : String := rustTrim (headerParts.headD "")
      let id : Option String := (headerParts.get? 1).map rustTrim
      if tag = TAG_PROC_STACK then
        .ok ⟨tag, id, [], rest⟩
      else
        let st := rest.foldl
          (fun (acc : List (String × String) × List String) line =>
            match splitn2Str line ": " with
            | some (k, v) => (hmInsert acc.1 (rustTrim k) (rustTrim v), acc.2)
            | none => (acc.1, acc.2 ++ [line]))
          ([], [])
        .ok ⟨tag, id, st.1, st.2⟩

/-! Typed section records and their decoders (types.rs). -/

/-- Struct Preamble of types.rs. -/
structure Preamble where
  version : String
  time : String
  slogan : String
  erts : String
  taints : String
  atom_count : Int
  calling_thread : String
  deriving DecidableEq, Repr

/-- Struct Processes of types.rs (memory section sub-record). -/
structure Processes where
  total : Int
  used : Int
  deriving DecidableEq, Repr

/-- Struct Atom of types.rs (memory section sub-record). -/
structure Atom where
  total : Int
  used : Int
  deriving DecidableEq, Repr

/-- Struct MemoryInfo of types.rs. -/
structure MemoryInfo where
  total : Int
  processes : Processes
  system : Int
  atom : Atom
  binary : Int
  code : Int
  ets : Int
  deriving DecidableEq, Repr

/-- MemoryInfo::from_generic_section: every field is read with a plain
HashMap index and an unwrap on the i64 parse, so a missing key or an
unparsable value is a panic, modelled as none. -/
def MemoryInfo.from_generic_section (data : List (String × String)) : Option MemoryInfo := do
  let total ← (alookup data "total").bind parseI64
  let ptotal ← (alookup data "processes").bind parseI64
  let pused ← (alookup data "processes_used").bind parseI64
  let system ← (alookup data "system").bind parseI64
  let atotal ← (alookup data "atom").bind parseI64
  let aused ← (alookup data "atom_used").bind parseI64
  let binary ← (alookup data "binary").bind parseI64
  let code ← (alookup data "code").bind parseI64
  let ets ← (alookup data "ets").bind parseI64
  pure ⟨total, ⟨ptotal, pused⟩, system, ⟨atotal, aused⟩, binary, code, ets⟩

/-- Struct ProgramCounter of types.rs (derives Default: empty strings and
zeros). The arity field is i32 and the offset field is i64 in the source;
both are Int here. -/
structure ProgramCounter where
  address : String
  function : String
  offset : Int
  arity : Int
  deriving DecidableEq, Repr

def ProgramCounter.default : ProgramCounter := ⟨"", "", 0, 0⟩

/-- Longest prefix satisfying p, which must be nonempty, plus the rest. -/
def takeWhile1 (p : Char → Bool) (l : List Char) : Option (List Char × List Char) :=
  match l.takeWhile p with
  | [] => none
  | t => some (t, l.drop t.length)

/-- Strip an expected literal prefix. -/
def expectL (pat : String) (l : List Char) : Option (List Char) :=
  if pat.data.isPrefixOf l then some (l.drop pat.data.length) else none

/-- Digit capture parsed as i64 with unwrap_or_default (overflow gives 0). -/
def digitsToI64D (l : List Char) : Int :=
  match decVal l with
  | some n => if (n : Int) ≤ 2 ^ 63 - 1 then (n : Int) else 0
  | none => 0

/-- Digit capture parsed as i32 with unwrap_or_default (overflow gives 0). -/
def digitsToI32D (l : List Char) : Int :=
  match decVal l with
  | some n => if (n : Int) ≤ 2 ^ 31 - 1 then (n : Int) else 0
  | none => 0

/-- Match of the ProgramCounter regex at one position. The captures are
applied exactly as in ProgramCounter::from_string: the address capture
keeps its 0x prefix, the function field receives the module capture, and
the function-name capture of the regex is dropped. -/
def pcParseAt (l : List Char) : Option ProgramCounter := do
  let l ← expectL "Program counter: " l
  let l ← expectL "0x" l
  let (hex, l) ← takeWhile1 (fun c => (hexDigit? c).isSome) l
  let l ← expectL " (" l
  let (mod_, l) ← takeWhile1 (· ≠ ':') l
  let l ← expectL ":" l
  let (_, l) ← takeWhile1 (· ≠ '/') l
  let l ← expectL "/" l
  let (ar, l) ← takeWhile1 Char.isDigit l
  let l ← expectL " + " l
  let (off, l) ← takeWhile1 Char.isDigit l
  let _ ← expectL ")" l
  pure ⟨"0x" ++ hex.asString, mod_.asString, digitsToI64D off, digitsToI32D ar⟩

def pcSearchGo : List Char → Option ProgramCounter
  | [] => pcParseAt []
  | x :: xs =>
    match pcParseAt (x :: xs) with
    | some pc => some pc
    | none => pcSearchGo xs

/-- ProgramCounter::from_string: an unanchored regex search, modelled as
trying the anchored match at every suffix, leftmost first. Note that the
value handed to it by the ProcInfo decoder no longer contains the literal
"Program counter: " prefix demanded by the regex, so in practice the
search fails and the default record is used. -/
def ProgramCounter.from_string (s : String) : Option ProgramCounter :=
  pcSearchGo s.data

/-- Struct ProcInfo of types.rs; all i64 fields are Int. -/
structure ProcInfo where
  pid : String
  state : String
  name : Option String
  spawned_as : Option String
  spawned_by : Option String
  message_queue_length : Int
  number_of_heap_fragments : Int
  heap_fragment_data : Int
  link_list : List String
  reductions : Int
  stack_heap : Int
  old_heap : Int
  heap_unused : Int
  old_heap_unused : Int
  bin_vheap : Int
  old_bin_vheap : Int
  bin_vheap_unused : Int
  old_bin_vheap_unused : Int
  total_bin_vheap : Int
  memory : Int
  arity : Int
  program_counter : ProgramCounter
  internal_state : List String
  deriving DecidableEq, Repr

/-- Rust trim_matches for the bracket characters of a link list. -/
def trimBrackets (s : String) : String :=
  (((s.data.dropWhile (fun c => c = '[' || c = ']')).reverse.dropWhile
      (fun c => c = '[' || c = ']')).reverse).asString

/-- Numeric kv field: parse::<i64>().ok() with unwrap_or(0). -/
def kvI64 (data : List (String × String)) (key : String) : Int :=
  ((alookup data key).bind parseI64).getD 0

/-- ProcInfo::from_generic_section of types.rs. Total fidelity points:
the name field is always Some (a missing Name key yields Some of the
empty string), spawned_as and spawned_by drop empty values, every
numeric field defaults to 0, and total_bin_vheap is overwritten with
bin_vheap + old_bin_vheap after construction. -/
def ProcInfo.from_generic_section (sec : GenericSection) : ProcInfo :=
  let id := sec.id.getD ""
  let data := sec.data
  let link_list : List String :=
    ((alookup data "Link list").map
      (fun s => (splitAllL ", ".data (trimBrackets s).data).map List.asString)).getD []
  let internal_state : List String :=
    ((alookup data "Internal State").map
      (fun s => (splitAllL " | ".data s.data).map List.asString)).getD []
  let program_counter : Option ProgramCounter :=
    (alookup data "Program counter").bind ProgramCounter.from_string
  let state := (alookup data "State").getD ""
  let name := (alookup data "Name").getD ""
  let spawned_as := (alookup data "Spawned as").filter (fun s => !(s = ""))
  let spawned_by := (alookup data "Spawned by").filter (fun s => !(s = ""))
  let arity : Int :=
    ((sec.raw_lines.head?.bind
        (fun line => ((chSplitAll '=' line.data).getLast?.map
          (fun p => rustTrim p.asString)))).bind parseI64).getD 0
  let proc : ProcInfo :=
    { pid := id
      state := state
      name := some name
      spawned_as := spawned_as
      spawned_by := spawned_by
      message_queue_length := kvI64 data "Message queue length"
      number_of_heap_fragments := kvI64 data "Number of heap fragments"
      heap_fragment_data := kvI64 data "Heap fragment data"
      link_list := link_list
      reductions := kvI64 data "Reductions"
      stack_heap := kvI64 data "Stack+heap"
      old_heap := kvI64 data "OldHeap"
      heap_unused := kvI64 data "Heap unused"
      old_heap_unused := kvI64 data "OldHeap unused"
      bin_vheap := kvI64 data "BinVHeap"
      old_bin_vheap := kvI64 data "OldBinVHeap"
      bin_vheap_unused := kvI64 data "BinVHeap unused"
      old_bin_vheap_unused := kvI64 data "OldBinVHeap unused"
      total_bin_vheap := 0
      memory := kvI64 data "Memory"
      arity := arity
      program_counter := program_counter.getD ProgramCounter.default
      internal_state := internal_state }
  { proc with total_bin_vheap := proc.bin_vheap + proc.old_bin_vheap }

/-- Struct StackFrame of types.rs (offset and arity are usize). The
source calls the first field variables; that word is a reserved token
here, so the field is named vars. -/
structure StackFrame where
  vars : List String
  address : String
  return_addr : String
  function : String
  module : String
  offset : Nat
  arity : Nat
  deriving DecidableEq, Repr

/-- Struct ProcStackInfo of types.rs. -/
structure ProcStackInfo where
  pid : String
  frames : List StackFrame
  deriving DecidableEq, Repr

/-- Shared front of the two stack-line regexes: an address, the literal
":S", the alternation of "Return addr" and "Catch" (left first), spaces,
a return address, spaces and an opening parenthesis. Produces the two
captures and the rest. -/
def stackFrontParse (l : List Char) : Option (String × String × List Char) := do
  let l ← expectL "0x" l
  let (a, l) ← takeWhile1 (fun c => (hexDigit? c).isSome) l
  let l ← expectL ":S" l
  let l ← (match expectL "Return addr" l with
           | some l => some l
           | none => expectL "Catch" l)
  let (_, l) ← takeWhile1 isRustWS l
  let l ← expectL "0x" l
  let (r, l) ← takeWhile1 (fun c => (hexDigit? c).isSome) l
  let (_, l) ← takeWhile1 isRustWS l
  let l ← expectL "(" l
  pure ("0x" ++ a.asString, "0x" ++ r.asString, l)

/-- Anchored match of re_no_module of ProcStackInfo::from_generic_section:
captures address, return address and an angle-bracketed function text. -/
def reNoModule (line : String) : Option (String × String × String) := do
  let (a, r, l) ← stackFrontParse line.data
  let l ← expectL "<" l
  let (body, l) ← takeWhile1 (· ≠ '>') l
  let l ← expectL ">" l
  let _ ← expectL ")" l
  pure (a, r, "<" ++ body.asString ++ ">")

/-- Anchored match of re_func_info of ProcStackInfo::from_generic_section:
captures address, return address, module, function, arity and offset. -/
def reFuncInfo (line : String) :
    Option (String × String × String × String × Nat × Nat) := do
  let (a, r, l) ← stackFrontParse line.data
  let (m, l) ← takeWhile1 (· ≠ ':') l
  let l ← expectL ":" l
  let (f, l) ← takeWhile1 (· ≠ '/') l
  let l ← expectL "/" l
  let (ar, l) ← takeWhile1 Char.isDigit l
  let l := l.dropWhile isRustWS
  let l ← expectL "+" l
  let l := l.dropWhile isRustWS
  let (off, l) ← takeWhile1 Char.isDigit l
  let _ ← expectL ")" l
  let arv ← decVal ar
  let offv ← decVal off
  pure (a, r, m.asString, f.asString, arv, offv)

/-- Mutable locals of the frame state machine. -/
structure StackSt where
  frames : List StackFrame
  args : List String
  address : String
  return_addr : String
  function : String
  module : String
  offset : Nat
  arity : Nat

def StackSt.mkFrame (st : StackSt) : StackFrame :=
  ⟨[], st.address, st.return_addr, st.function, st.module, st.offset, st.arity⟩

def stackInit : StackSt :=
  { frames := [], args := [], address := "", return_addr := "",
    function := "", module := "", offset := 0, arity := 0 }

/-- One line of the ProcStackInfo::from_generic_section loop. The open
frame is pushed when a 0x line arrives; fields not captured by a regex
keep their previous values; a 0x line matching no regex still closes the
previous frame and reopens one from the stale fields. -/
def procStackStep (cur : StackFrame) (st : StackSt) (line : String) :
    StackFrame × StackSt :=
  if rsStartsWith line "y" then
    match splitn2Str line ":" with
    | some (_, v) => (cur, { st with args := st.args ++ [rustTrim v] })
    | none => (cur, st)
  else if rsStartsWith line "0x" then
    let st := { st with frames := st.frames ++ [{ cur with vars := st.args }],
                        args := [] }
    match reNoModule line with
    | some (a, r, f) =>
      let st := { st with address := a, return_addr := r, function := f }
      (st.mkFrame, st)
    | none =>
      match reFuncInfo line with
      | some (a, r, m, f, arv, offv) =>
        let st := { st with address := a, return_addr := r, function := f,
                            module := m, arity := arv, offset := offv }
        (st.mkFrame, st)
      | none => (st.mkFrame, st)
  else (cur, st)

/-- ProcStackInfo::from_generic_section of types.rs: a wrong tag is an
Err, a missing section id is an unwrap panic, and the last open frame is
not flushed at the end of the section. -/
def ProcStackInfo.from_generic_section (sec : GenericSection) :
    RResult ProcStackInfo :=
  if sec.tag ≠ TAG_PROC_STACK then .err "Not a proc_stack section"
  else
    match sec.id with
    | none => .panic
    | some pid =>
      let fin := sec.raw_lines.foldl
        (fun acc line => procStackStep acc.1 acc.2 line)
        (stackInit.mkFrame, stackInit)
      .ok ⟨pid, fin.2.frames⟩

/-- Struct ProcMessagesInfo of types.rs. The messages field is a Rust
HashMap (so unordered); it is the association list of its bindings here,
with hmInsert replacing on duplicate addresses exactly as
HashMap::insert does. -/
structure ProcMessagesInfo where
  pid : String
  messages : List (String × String)
  deriving DecidableEq, Repr

/-- Loop body of ProcMessagesInfo::from_generic_section over one raw
line: split at the first colon and insert into the map. -/
def msgStep (m : List (String × String)) (line : String) :
    List (String × String) :=
  match splitn2Str line ":" with
  | some (a, b) => hmInsert m a b
  | none => m

def mkMessages (lines : List String) : List (String × String) :=
  lines.foldl msgStep []

/-- ProcMessagesInfo::from_generic_section of types.rs; a missing id is
an unwrap panic. -/
def ProcMessagesInfo.from_generic_section (sec : GenericSection) :
    RResult ProcMessagesInfo :=
  if sec.tag ≠ TAG_PROC_MESSAGES then .err "Not a proc_messages section"
  else
    match sec.id with
    | none => .panic
    | some pid => .ok ⟨pid, mkMessages sec.raw_lines⟩

/-- Enum DumpSection of types.rs (the variants that are not commented
out in the source). -/
inductive DumpSection where
  | Preamble (p : Preamble)
  | Proc (p : ProcInfo)
  | ProcStack (p : ProcStackInfo)
  | ProcMessages (p : ProcMessagesInfo)
  | Memory (m : MemoryInfo)
  | Generic (g : GenericSection)
  deriving DecidableEq, Repr

/-- Function parse_section of types.rs. The GenericSection parse error is
an Err; the Preamble arm indexes raw_lines[0] and the kv map and unwraps
the Atoms parse (all panics when absent); the Memory arm panics the same
way inside MemoryInfo::from_generic_section; the ProcStack and
ProcMessages arms unwrap their Result (a panic on Err); every other tag
falls through to the Generic variant; an unknown tag string panics inside
string_tag_to_enum. -/
def parse_section (s : String) : RResult DumpSection :=
  match GenericSection.fromStr s with
  | .error e => .err e
  | .ok sec =>
    let id := sec.id.getD ""
    match string_tag_to_enum sec.tag with
    | none => .panic
    | some t =>
      match t with
      | .Preamble =>
        match sec.raw_lines.head?, alookup sec.data "Slogan",
              alookup sec.data "System version", alookup sec.data "Taints",
              (alookup sec.data "Atoms").bind parseI64,
              alookup sec.data "Calling Thread" with
        | some time, some slogan, some erts, some taints, some ac, some ct =>
          .ok (.Preamble ⟨id, time, slogan, erts, taints, ac, ct⟩)
        | _, _, _, _, _, _ => .panic
      | .Memory =>
        match MemoryInfo.from_generic_section sec.data with
        | some m => .ok (.Memory m)
        | none => .panic
      | .Proc => .ok (.Proc (ProcInfo.from_generic_section sec))
      | .ProcStack =>
        match ProcStackInfo.from_generic_section sec with
        | .ok p => .ok (.ProcStack p)
        | _ => .panic
      | .ProcMessages =>
        match ProcMessagesInfo.from_generic_section sec with
        | .ok p => .ok (.ProcMessages p)
        | _ => .panic
      | _ => .ok (.Generic sec)

/-! Term decoder (CrashDump::parse_datatype and helpers, types.rs). -/

def MAX_DEPTH_PARSE_DATATYPE : Nat := 5

/-- The two fields of struct CrashDump (types.rs) that the term decoder
reads: the merged address map and the binary length index. The many
other fields of the Rust struct never flow into parse_datatype or into
any claim settled here and are omitted. -/
structure CrashDump where
  all_heap_addresses : List (String × String)
  visited_binaries : List (String × Nat)
  deriving DecidableEq, Repr

/-- Sequence a decoding function over a list, short-circuiting on the
first Err or panic, as collect over Result does in the source. -/
def rmapList (f : String → RResult String) : List String → RResult (List String)
  | [] => .ok []
  | x :: xs =>
    match f x with
    | .ok b =>
      match rmapList f xs with
      | .ok bs => .ok (b :: bs)
      | .err e => .err e
      | .panic => .panic
    | .err e => .err e
    | .panic => .panic

/-- CrashDump::parse_string: everything after the first colon. -/
def parse_string (data : String) : String :=
  match splitn2Str data ":" with
  | some (_, v) => v
  | none => ""

/-- CrashDump::parse_atom: everything after the first colon. -/
def parse_atom (data : String) : String :=
  match splitn2Str data ":" with
  | some (_, v) => v
  | none => ""

/-- CrashDump::parse_int: parse the tail after the I prefix as i64. -/
def parse_int (data : String) : RResult Int :=
  parseI64R (data.data.drop 1).asString

/-- CrashDump::parse_bignum. The B-16# branch of the source drops only
four chars, leaving the hash sign in the magnitude, reproduced here. -/
def parse_bignum (data : String) : RResult String :=
  let number_str :=
    if rsStartsWith data "B16#" || rsStartsWith data "B-16#" then
      (data.data.drop 4).asString
    else
      (data.data.drop 1).asString
  .ok ("[bignum size: " ++ toString number_str.data.length ++ "]")

/-- CrashDump::parse_float. -/
def parse_float (data : String) : RResult String :=
  match splitn2Str (data.data.drop 1).asString ":" with
  | none => .err ("Invalid float format: " ++ data)
  | some (len_str, float_str) =>
    match parseHexR len_str with
    | .ok len =>
      if len ≠ float_str.data.length then
        .err ("Float length mismatch: expected " ++ toString len ++ ", got "
              ++ toString float_str.data.length)
      else .ok ("[float: " ++ float_str ++ "]")
    | .err e => .err e
    | .panic => .panic

/-- CrashDump::parse_pid. -/
def parse_pid (data : String) : RResult String :=
  match data.data with
  | 'P' :: rest => .ok ("[external pid: " ++ rest.asString ++ "]")
  | 'p' :: rest => .ok ("[external port: " ++ rest.asString ++ "]")
  | _ => .err ("Invalid pid/port format: " ++ data)

/-- CrashDump::parse_funref; the two-byte slice panics on a bare R. -/
def parse_funref (data : String) : RResult String :=
  if data.data.length < 2 then .panic
  else .ok ("[fun ref: " ++ (data.data.drop 2).asString ++ "]")

/-- CrashDump::parse_encoded_term; only the hex length is consumed, the
payload is never decoded. -/
def parse_encoded_term (data : String) : RResult String :=
  let data' := (data.data.drop 1).asString
  match splitn2Str data' ":" with
  | none => .err ("Invalid heap binary format: " ++ data')
  | some (len_str, _) =>
    match parseHexR len_str with
    | .ok len => .ok ("<<bin size " ++ toString len ++ ">>")
    | .err e => .err e
    | .panic => .panic

/-- CrashDump::parse_binary of types.rs. The one-byte slice data[1..2]
panics when the string is a bare Y, and the heap-binary branch slices
data[3..] which panics when nothing follows Yh. The sub-binary branch
returns an Err - not an Ok rendering - when offset plus size exceeds the
parent length. -/
def parse_binary (cd : CrashDump) (data : String) : RResult String :=
  match data.data with
  | _ :: c :: rest =>
    if c = 'h' then
      if data.data.length < 3 then .panic
      else .ok ("[heap binary: " ++ (data.data.drop 3).asString ++ "]")
    else if c = 'c' then
      match (chSplitAll ':' rest).map List.asString with
      | [binp0_str, offset_str, sz_str] =>
        (match parseHexR binp0_str, parseHexR offset_str, parseHexR sz_str with
         | .ok binp0, .ok offset, .ok sz =>
           let binp_str := toHexUpper binp0
           match alookup cd.visited_binaries binp_str with
           | some len =>
             .ok ("[ref-counted binary: binp0=0x" ++ toHexLower binp0
                  ++ ", offset=" ++ toString offset ++ ", sz=" ++ toString sz
                  ++ ", len=" ++ toString len ++ "]")
           | none =>
             .ok ("[ref-counted binary: binp0=0x" ++ toHexLower binp0
                  ++ ", offset=" ++ toString offset ++ ", sz=" ++ toString sz
                  ++ ", not found]")
         | .err e, _, _ => .err e
         | _, .err e, _ => .err e
         | _, _, .err e => .err e
         | _, _, _ => .panic)
      | _ => .err ("Invalid reference-counted binary format: " ++ data)
    else if c = 's' then
      match (chSplitAll ':' rest).map List.asString with
      | [binp0_str, offset_str, sz_str] =>
        (match parseHexR binp0_str, parseHexR offset_str, parseHexR sz_str with
         | .ok binp0, .ok offset, .ok sz =>
           let binp_str := toHexUpper binp0
           match alookup cd.visited_binaries binp_str with
           | some len =>
             if offset + sz > len then
               .err ("Sub binary out of bounds: start=" ++ toString offset
                     ++ ", end=" ++ toString (offset + sz)
                     ++ ", len=" ++ toString len)
             else
               .ok ("[sub binary: binp0=0x" ++ toHexLower binp0
                    ++ ", offset=" ++ toString offset ++ ", sz=" ++ toString sz
                    ++ ", start=" ++ toString offset
                    ++ ", end=" ++ toString (offset + sz) ++ "]")
           | none =>
             .ok ("[sub binary: binp0=0x" ++ toHexLower binp0
                  ++ ", offset=" ++ toString offset ++ ", sz=" ++ toString sz
                  ++ ", not found]")
         | .err e, _, _ => .err e
         | _, .err e, _ => .err e
         | _, _, .err e => .err e
         | _, _, _ => .panic)
      | _ => .err ("Invalid sub binary format: " ++ data)
    else .err ("Invalid binary type: " ++ data)
  | _ => .panic

/-- Size scan of CrashDump::parse_tuple: hex digits up to a colon; the
accumulated size is never used by the source; exhausting the string
without a colon leaves an empty remainder; any other char is an Err. -/
def tupleRemainder (data : String) : List Char → RResult (List Char)
  | [] => .ok []
  | c :: cs =>
    if (hexDigit? c).isSome then tupleRemainder data cs
    else if c = ':' then .ok cs
    else .err ("Invalid tuple size format: " ++ data)

/-- CrashDump::parse_tuple, with the recursive elements handed in. -/
def parse_tuple (pd : String → RResult String) (data : String) : RResult String :=
  match tupleRemainder data (data.data.drop 1) with
  | .ok remaining =>
    (match rmapList pd ((chSplitAll ',' remaining).map List.asString) with
     | .ok parsed => .ok ("\x7b" ++ rsIntercalate ", " parsed ++ "\x7d")
     | .err e => .err e
     | .panic => .panic)
  | .err e => .err e
  | .panic => .panic

/-- CrashDump::parse_list, with the recursive elements handed in. An N
tail decodes to the empty string and still occupies a joined slot. -/
def parse_list (pd : String → RResult String) (data : String) : RResult String :=
  match rmapList pd ((chSplitAll '|' (data.data.drop 1)).map List.asString) with
  | .ok parsed => .ok ("[" ++ rsIntercalate ", " parsed ++ "]")
  | .err e => .err e
  | .panic => .panic

/-- CrashDump::parse_heap, with the recursive decode handed in. -/
def parse_heap (cd : CrashDump) (pd : String → RResult String) (data : String) :
    RResult String :=
  let addr := (data.data.drop 1).asString
  match alookup cd.all_heap_addresses addr with
  | some heap_data => pd heap_data
  | none => .ok ("*U - " ++ addr)

/-- CrashDump::parse_datatype of types.rs with its structural recursion
made explicit through a gas argument. The M prefix returns the raw text,
exactly as the source does: the parse_map function of types.rs is dead
code, never called from the dispatch, and is therefore not embedded. Every recursive call of the source
runs at depth + 1, so parse_datatype couples gas to depth (gas falls by
one exactly when depth rises by one) and the gas-zero branch is
unreachable from the parse_datatype entry point: before gas can reach
zero the depth guard has already returned the truncation marker. -/
def parse_datatypeF (cd : CrashDump) : Nat → String → Nat → RResult String
  | 0, _, _ => .err "unreachable: gas exhausted"
  | gas + 1, data, depth =>
    if depth > MAX_DEPTH_PARSE_DATATYPE then .ok ("(*" ++ data ++ ")")
    else
      let depth' := depth + 1
      let pd : String → RResult String := fun x => parse_datatypeF cd gas x depth'
      let c := data.data.head?
      if c = some 't' then parse_tuple pd data
      else if c = some 'A' then .ok (parse_atom data)
      else if c = some 'I' then
        (match parse_int data with
         | .ok i => .ok (toString i)
         | .err e => .err e
         | .panic => .panic)
      else if c = some 'N' then .ok ""
      else if c = some 'l' then parse_list pd data
      else if c = some 'H' then parse_heap cd pd data
      else if c = some 'E' then parse_encoded_term data
      else if c = some 'B' then parse_bignum data
      else if c = some 'F' then parse_float data
      else if c = some 'P' then parse_pid data
      else if c = some 'p' then parse_pid data
      else if c = some 'Y' then parse_binary cd data
      else if c = some 'M' then .ok ("M: " ++ data)
      else if c = some 'R' then parse_funref data
      else if c = some 'S' then .ok (parse_string data)
      else
        .ok ("---don\x27t know how to parse " ++ data ++ " at depth "
             ++ toString depth' ++ "---")

/-- CrashDump::parse_datatype. The gas budget keeps the invariant
gas = MAX_DEPTH_PARSE_DATATYPE + 2 - depth along every call chain, so it
never reaches zero: at gas one the depth is at least six and the depth
guard returns before any recursion. -/
def CrashDump.parse_datatype (cd : CrashDump) (data : String) (depth : Nat) :
    RResult String :=
  parse_datatypeF cd
    (MAX_DEPTH_PARSE_DATATYPE + 2 - min depth (MAX_DEPTH_PARSE_DATATYPE + 1))
    data depth

/-! Scanner sink and index construction (parser.rs). -/

/-- Position used by IndexSink::matched for the end of the tag: the
first colon of the whole matched line, or the last byte index when
there is no colon (chopping the trailing newline of the match). -/
def scanTagEnd (l : List Char) : Nat :=
  (charIndexOf ':' l).getD (l.length - 1)

/-- Tag text of a header line as sliced by IndexSink::matched. -/
def extractTag (line : String) : String :=
  ((line.data.drop 1).take (scanTagEnd line.data - 1)).asString

/-- Optional id of a header line as sliced and trimmed by
IndexSink::matched. -/
def extractId (line : String) : Option String :=
  if line.data.length > scanTagEnd line.data + 1 then
    some (rustTrim ((line.data.drop (scanTagEnd line.data + 1)).asString))
  else none

/-- IndexSink::matched of parser.rs for one matched line (the absolute
byte offset comes from the searcher). Lines not starting with the equals
sign push nothing; an unknown tag hits the unreachable macro inside
string_tag_to_enum, a panic that aborts the scan. The ok value is the
pushed triple, or none when nothing is pushed. -/
def IndexSink.matched (bytes : String) (byte_offset : Nat) :
    RResult (Option (Tag × Option String × Nat)) :=
  if rsStartsWith bytes "=" then
    match string_tag_to_enum (extractTag bytes) with
    | none => .panic
    | some tagEnum => .ok (some (tagEnum, extractId bytes, byte_offset))
  else .ok none

/-- Struct IndexRow of types.rs. The source stores start and length as
decimal strings and parses them back wherever they are used; they are
kept as Nat here. -/
structure IndexRow where
  type : String
  id : Option String
  start : Nat
  length : Nat
  deriving DecidableEq, Repr

/-- Enum IndexValue of types.rs. -/
inductive IndexValue where
  | map (m : List (String × IndexRow))
  | list (l : List IndexRow)
  deriving DecidableEq, Repr

/-- Type IndexMap of types.rs: a HashMap keyed by Tag, modelled as an
association list (entry or_insert appends a fresh binding). -/
def IndexMap := List (Tag × IndexValue)

/-- One insertion of CDParser::build_index: entry(tag).or_insert of the
variant matching the id, then as_map_mut or as_list_mut with unwrap.
The unwrap panics (none) when a tag arrives both with and without an
id. -/
def imInsert (m : List (Tag × IndexValue)) (t : Tag) (id : Option String)
    (row : IndexRow) : Option (List (Tag × IndexValue)) :=
  match m with
  | [] =>
    some [(t, match id with
              | some s => .map [(s, row)]
              | none => .list [row])]
  | (t', v) :: rest =>
    if t' = t then
      match v, id with
      | .map mm, some s => some ((t', .map (hmInsert mm s row)) :: rest)
      | .list l, none => some ((t', .list (l ++ [row])) :: rest)
      | _, _ => none
    else
      (imInsert rest t id row).map (fun r => (t', v) :: r)

/-- The IndexRow built for one scanner triple given the end offset of
its byte range. -/
def mkIndexRow (t : Tag) (id : Option String) (start stop : Nat) : IndexRow :=
  ⟨tagDebugStr t, id, start, stop - start⟩

/-- The rows inserted by CDParser::build_index: one per window of two
consecutive scanner triples, plus the last triple whose range runs to
the end of the file. -/
def indexRowsOf (ms : List (Tag × Option String × Nat)) (fileSize : Nat) :
    List (Tag × Option String × IndexRow) :=
  (List.zipWith
    (fun a b => (a.1, a.2.1, mkIndexRow a.1 a.2.1 a.2.2 b.2.2))
    ms ms.tail)
  ++ (match ms.getLast? with
      | some (t, i, o) => [(t, i, mkIndexRow t i o fileSize)]
      | none => [])

/-- CDParser::build_index of parser.rs given the scanner triples and the
file size; none is the unwrap panic of a mixed keyed and unkeyed tag. -/
def build_index (ms : List (Tag × Option String × Nat)) (fileSize : Nat) :
    Option (List (Tag × IndexValue)) :=
  (indexRowsOf ms fileSize).foldlM
    (fun m e => imInsert m e.1 e.2.1 e.2.2) []

/-- Sum of the lengths of the rows of one IndexValue. -/
def ivSum : IndexValue → Nat
  | .map mm => (mm.map (fun p => p.2.length)).sum
  | .list l => (l.map (fun r => r.length)).sum

/-- Sum of the lengths of every row of an index. -/
def imSum (m : List (Tag × IndexValue)) : Nat :=
  (m.map (fun p => ivSum p.2)).sum

/-! Ancestry aggregation (CDParser::create_descendants_table, parser.rs). -/

/-- Enum InfoOrIndex of types.rs. -/
inductive InfoOrIndex (α : Type) where
  | Index (row : IndexRow)
  | Info (a : α)
  deriving DecidableEq, Repr

/-- The upward walk of create_descendants_table. The loop body only
rebinds the cursor when the ancestor is present as Info with no name;
it breaks on a named Info ancestor and on a missing ancestor, keeping
the cursor; an ancestor present as Index leaves the cursor unchanged
forever, a division modelled - like fuel exhaustion on a spawned_by
cycle of unnamed processes - as none. The some value is the cursor
after the loop. -/
def walkAncestor (table : List (String × InfoOrIndex ProcInfo)) :
    Option String → Nat → Option (Option String)
  | none, _ => some none
  | some _, 0 => none
  | some apid, fuel + 1 =>
    match alookup table apid with
    | some (.Info aproc) =>
      if aproc.name.isSome then some (some apid)
      else walkAncestor table aproc.spawned_by fuel
    | some (.Index _) => none
    | none => some (some apid)

/-- The entry(...).or_insert_with(Vec::new).push(pid) of
create_descendants_table. -/
def pushChild (acc : List (String × List String)) (ap pid : String) :
    List (String × List String) :=
  match acc with
  | [] => [(ap, [pid])]
  | (k, l) :: rest =>
    if k = ap then (k, l ++ [pid]) :: rest else (k, l) :: pushChild rest ap pid

/-- One iteration of create_descendants_table over one table entry. -/
def cdtStep (table : List (String × InfoOrIndex ProcInfo)) (fuel : Nat)
    (acc : List (String × List String)) (e : String × InfoOrIndex ProcInfo) :
    Option (List (String × List String)) :=
  match e.2 with
  | .Index _ => some acc
  | .Info p =>
    match walkAncestor table p.spawned_by fuel with
    | none => none
    | some none => some acc
    | some (some ap) => some (pushChild acc ap e.1)

/-- CDParser::create_descendants_table of parser.rs. The DashMap
iteration order is whatever order the association list carries; none
models the non-terminating walks described at walkAncestor. -/
def create_descendants_table (table : List (String × InfoOrIndex ProcInfo))
    (fuel : Nat) : Option (List (String × List String)) :=
  table.foldlM (cdtStep table fuel) []

/-- One step of the direct-parent attribution used for comparison with
the walk of create_descendants_table. -/
def dpStep (acc : List (String × List String)) (e : String × InfoOrIndex ProcInfo) :
    List (String × List String) :=
  match e.2 with
  | .Info p =>
    match p.spawned_by with
    | some ap => pushChild acc ap e.1
    | none => acc
  | .Index _ => acc

/-- Modelled from the spec for comparison in the ancestry claim: the
table that attributes every process carrying a spawned_by directly to
that parent pid. -/
def directParentTable (table : List (String × InfoOrIndex ProcInfo)) :
    List (String × List String) :=
  table.foldl dpStep []

/-! Derived definitions used by the claims. -/

/-- Whether a table value is an Info whose name field is Some. Every
ProcInfo produced by the decoder satisfies this. -/
def isNamedInfo : InfoOrIndex ProcInfo → Bool
  | .Info p => p.name.isSome
  | .Index _ => false

/-- Value of the last binding for addr among the pairs, in list order. -/
def lastMatch (addr : String) : List (String × String) → Option String
  | [] => none
  | q :: rest =>
    match lastMatch addr rest with
    | some v => some v
    | none => if q.1 = addr then some q.2 else none

/-- Kind of the binding of a tag in an index: some true for a keyed map,
some false for an unkeyed list, none when unbound. -/
def ivKindIsMap : IndexValue → Bool
  | .map _ => true
  | .list _ => false

def imKind (m : List (Tag × IndexValue)) (t : Tag) : Option Bool :=
  (alookup m t).map ivKindIsMap

def imHasKey (m : List (Tag × IndexValue)) (t : Tag) (s : String) : Bool :=
  match alookup m t with
  | some (.map mm) => (alookup mm s).isSome
  | _ => false

/-- Insertion preconditions for one scanner row against an index: the
binding kind of its tag must agree with the presence of its id, and a
keyed row must carry a fresh key. -/
def rowInsOk (m : List (Tag × IndexValue)) (e : Tag × Option String × IndexRow) : Prop :=
  (e.2.1 = none → imKind m e.1 ≠ some true)
  ∧ (∀ s, e.2.1 = some s → imKind m e.1 ≠ some false ∧ imHasKey m e.1 s = false)

/-- Pairwise compatibility of scanner rows: equal tags agree on
keyedness, and two keyed rows never share tag and id. -/
def rowsCompat (a b : Tag × Option String × IndexRow) : Prop :=
  (a.1 = b.1 → a.2.1.isSome = b.2.1.isSome)
  ∧ (a.1 = b.1 → a.2.1 = b.2.1 → a.2.1 = none)

/-- A ProcInfo with the given pid, name and parent and every other field
empty or zero, as in the ancestry scenario of the spec. -/
def mkProcEx (pid : String) (name : Option String) (sb : Option String) : ProcInfo :=
  ⟨pid, "", name, none, sb, 0, 0, 0, [], 0, 0, 0, 0, 0, 0, 0, 0, 0, 0, 0, 0,
    ProgramCounter.default, []⟩

/-- The ancestry scenario of the spec: p1 named root, p2 spawned by p1,
p3 spawned by p2. -/
def ancestryExTable : List (String × InfoOrIndex ProcInfo) :=
  [("p1", .Info (mkProcEx "p1" (some "root") none)),
   ("p2", .Info (mkProcEx "p2" (some "") (some "p1"))),
   ("p3", .Info (mkProcEx "p3" (some "") (some "p2")))]

/-- A proc_messages section carrying two lines with the same address. -/
def msgsExSec : GenericSection :=
  ⟨"proc_messages", some "<0.1.0>", [], ["A:I1", "A:I2"]⟩

/-- A proc_messages section with three lines, two sharing an address. -/
def msgsWitSec : GenericSection :=
  ⟨"proc_messages", some "<0.1.0>", [], ["A:I1", "B:I2", "A:I3"]⟩

/-! General lemmas about the embedded definitions. -/

theorem alookup_cons {κ α : Type} [DecidableEq κ] (k : κ) (v : α)
    (rest : List (κ × α)) (k' : κ) :
    alookup ((k, v) :: rest) k' = if k = k' then some v else alookup rest k' := rfl

theorem alookup_mem {κ α : Type} [DecidableEq κ] {m : List (κ × α)} {k : κ} {v : α}
    (h : alookup m k = some v) : (k, v) ∈ m := by
  induction m with
  | nil => simp [alookup] at h
  | cons e rest ih =>
    obtain ⟨k', v'⟩ := e
    by_cases hk : k' = k
    · subst hk
      simp [alookup] at h
      simp [h]
    · simp [alookup, hk] at h
      exact List.mem_cons_of_mem _ (ih h)

theorem hmInsert_alookup {κ α : Type} [DecidableEq κ]
    (m : List (κ × α)) (k : κ) (v : α) (addr : κ) :
    alookup (hmInsert m k v) addr = if k = addr then some v else alookup m addr := by
  induction m with
  | nil => rfl
  | cons e rest ih =>
    obtain ⟨k', v'⟩ := e
    by_cases hkk : k' = k
    · subst hkk
      by_cases ha : k' = addr <;> simp [hmInsert, alookup, ha]
    · by_cases ha : k' = addr
      · subst ha
        have hka : ¬ k = k' := fun h => hkk h.symm
        simp [hmInsert, hkk, alookup, hka]
      · simp [hmInsert, hkk, alookup, ha, ih]

theorem chSplitAll_no_sep (c : Char) (l : List Char) (h : c ∉ l) :
    chSplitAll c l = [l] := by
  induction l with
  | nil => rfl
  | cons x xs ih =>
    have hx : ¬ x = c := fun he => h (he ▸ List.mem_cons_self x xs)
    have hxs : c ∉ xs := fun hm => h (List.mem_cons_of_mem x hm)
    rw [chSplitAll, if_neg hx, ih hxs]

theorem chSplitAll_append (c : Char) (l1 l2 : List Char) (h : c ∉ l1) :
    chSplitAll c (l1 ++ c :: l2) = l1 :: chSplitAll c l2 := by
  induction l1 with
  | nil => simp [chSplitAll]
  | cons x xs ih =>
    have hx : ¬ x = c := fun he => h (he ▸ List.mem_cons_self x xs)
    have hxs : c ∉ xs := fun hm => h (List.mem_cons_of_mem x hm)
    rw [List.cons_append, chSplitAll, if_neg hx, ih hxs]

theorem asString_data (s : String) : s.data.asString = s := rfl

theorem walk_named (table : List (String × InfoOrIndex ProcInfo))
    (h : ∀ e ∈ table, isNamedInfo e.2 = true) (a : String) (fuel : Nat) :
    walkAncestor table (some a) (fuel + 1) = some (some a) := by
  cases halk : alookup table a with
  | none => simp [walkAncestor, halk]
  | some v =>
    have hv := h (a, v) (alookup_mem halk)
    cases v with
    | Index row => simp [isNamedInfo] at hv
    | Info p =>
      simp [isNamedInfo] at hv
      simp [walkAncestor, halk, hv]

theorem cdt_go (table : List (String × InfoOrIndex ProcInfo))
    (h : ∀ e ∈ table, isNamedInfo e.2 = true) (fuel : Nat) :
    ∀ (l : List (String × InfoOrIndex ProcInfo)) (acc : List (String × List String)),
      (∀ e ∈ l, e ∈ table) →
      l.foldlM (cdtStep table (fuel + 1)) acc = some (l.foldl dpStep acc) := by
  intro l
  induction l with
  | nil => intro acc _; rfl
  | cons e rest ih =>
    intro acc hmem
    have he : e ∈ table := hmem e (List.mem_cons_self e rest)
    have hname := h e he
    rw [List.foldlM_cons, List.foldl_cons]
    cases hv : e.2 with
    | Index row => simp [isNamedInfo, hv] at hname
    | Info p =>
      cases hsb : p.spawned_by with
      | none =>
        have hstep : cdtStep table (fuel + 1) acc e = some acc := by
          simp [cdtStep, hv, hsb, walkAncestor]
        have hdp : dpStep acc e = acc := by simp [dpStep, hv, hsb]
        rw [hstep, hdp]
        exact ih acc (fun x hx => hmem x (List.mem_cons_of_mem e hx))
      | some ap =>
        have hstep : cdtStep table (fuel + 1) acc e = some (pushChild acc ap e.1) := by
          simp [cdtStep, hv, hsb, walk_named table h ap fuel]
        have hdp : dpStep acc e = pushChild acc ap e.1 := by simp [dpStep, hv, hsb]
        rw [hstep, hdp]
        exact ih _ (fun x hx => hmem x (List.mem_cons_of_mem e hx))

theorem mkMessages_alookup (addr : String) (lines : List String)
    (acc : List (String × String)) :
    alookup (lines.foldl msgStep acc) addr
      = match lastMatch addr (lines.filterMap (fun line => splitn2Str line ":")) with
        | some v => some v
        | none => alookup acc addr := by
  induction lines generalizing acc with
  | nil => simp [lastMatch]
  | cons line rest ih =>
    rw [List.foldl_cons, ih]
    cases hkv : splitn2Str line ":" with
    | none => simp [msgStep, hkv]
    | some kv =>
      obtain ⟨k, v⟩ := kv
      have hmsg : msgStep acc line = hmInsert acc k v := by simp [msgStep, hkv]
      have hfm : (line :: rest).filterMap (fun line => splitn2Str line ":")
          = (k, v) :: rest.filterMap (fun line => splitn2Str line ":") := by
        simp [hkv]
      rw [hmsg, hfm]
      show _ = match (match lastMatch addr (rest.filterMap (fun line => splitn2Str line ":")) with
                      | some v' => some v'
                      | none => if k = addr then some v else none) with
               | some v' => some v'
               | none => alookup acc addr
      cases lastMatch addr (rest.filterMap (fun line => splitn2Str line ":")) with
      | some v' => simp
      | none =>
        simp only [hmInsert_alookup]
        by_cases hk : k = addr <;> simp [hk]

theorem hmInsert_sum_fresh (mm : List (String × IndexRow)) (s : String) (row : IndexRow)
    (h : alookup mm s = none) :
    ((hmInsert mm s row).map (fun p => p.2.length)).sum
      = (mm.map (fun p => p.2.length)).sum + row.length := by
  induction mm with
  | nil => simp [hmInsert]
  | cons e rest ih =>
    obtain ⟨k, v⟩ := e
    rw [alookup_cons] at h
    by_cases hk : k = s
    · simp [hk] at h
    · rw [if_neg hk] at h
      simp [hmInsert, hk, ih h]
      omega

theorem imInsert_spec (m : List (Tag × IndexValue)) (t : Tag) (id : Option String)
    (row : IndexRow)
    (hnone : id = none → imKind m t ≠ some true)
    (hsome : ∀ s, id = some s → imKind m t ≠ some false ∧ imHasKey m t s = false) :
    ∃ m', imInsert m t id row = some m'
      ∧ imSum m' = imSum m + row.length
      ∧ (∀ t', imKind m' t' = if t' = t then some id.isSome else imKind m t')
      ∧ (∀ t' s', imHasKey m' t' s'
           = (imHasKey m t' s' || (decide (t' = t) && decide (id = some s')))) := by
  induction m with
  | nil =>
    cases id with
    | none =>
      refine ⟨[(t, .list [row])], rfl, by simp [imSum, ivSum], ?_, ?_⟩
      · intro t'
        by_cases ht : t' = t
        · subst ht; simp [imKind, alookup, ivKindIsMap]
        · simp [imKind, alookup, ivKindIsMap, ht, Ne.symm ht]
      · intro t' s'
        by_cases ht : t' = t
        · subst ht; simp [imHasKey, alookup]
        · simp [imHasKey, alookup, ht, Ne.symm ht]
    | some s =>
      refine ⟨[(t, .map [(s, row)])], rfl, by simp [imSum, ivSum], ?_, ?_⟩
      · intro t'
        by_cases ht : t' = t
        · subst ht; simp [imKind, alookup, ivKindIsMap]
        · simp [imKind, alookup, ivKindIsMap, ht, Ne.symm ht]
      · intro t' s'
        by_cases ht : t' = t
        · subst ht
          by_cases hs : s = s' <;> simp [imHasKey, alookup, hs]
        · simp [imHasKey, alookup, ht, Ne.symm ht]
  | cons e rest ih =>
    obtain ⟨t'', v⟩ := e
    by_cases htt : t'' = t
    · subst htt
      cases v with
      | map mm =>
        cases id with
        | none =>
          exfalso
          apply hnone rfl
          simp [imKind, alookup, ivKindIsMap]
        | some s =>
          have hfresh : alookup mm s = none := by
            have h2 := (hsome s rfl).2
            simp [imHasKey, alookup] at h2
            cases halk : alookup mm s with
            | none => rfl
            | some x => rw [halk] at h2; simp at h2
          refine ⟨(t'', .map (hmInsert mm s row)) :: rest, by simp [imInsert], ?_, ?_, ?_⟩
          · simp [imSum, ivSum, hmInsert_sum_fresh mm s row hfresh]
            omega
          · intro t'
            by_cases ht : t' = t''
            · subst ht; simp [imKind, alookup, ivKindIsMap]
            · simp [imKind, alookup, ivKindIsMap, ht, Ne.symm ht]
          · intro t' s'
            by_cases ht : t' = t''
            · subst ht
              simp [imHasKey, alookup, hmInsert_alookup]
              by_cases hs : s = s' <;> simp [hs]
            · simp [imHasKey, alookup, ht, Ne.symm ht]
      | list l =>
        cases id with
        | some s =>
          exfalso
          apply (hsome s rfl).1
          simp [imKind, alookup, ivKindIsMap]
        | none =>
          refine ⟨(t'', .list (l ++ [row])) :: rest, by simp [imInsert], ?_, ?_, ?_⟩
          · simp [imSum, ivSum]
            omega
          · intro t'
            by_cases ht : t' = t''
            · subst ht; simp [imKind, alookup, ivKindIsMap]
            · simp [imKind, alookup, ivKindIsMap, ht, Ne.symm ht]
          · intro t' s'
            by_cases ht : t' = t''
            · subst ht; simp [imHasKey, alookup]
            · simp [imHasKey, alookup, ht, Ne.symm ht]
    · have hkind_eq : imKind ((t'', v) :: rest) t = imKind rest t := by
        simp [imKind, alookup, htt]
      have hkey_eq : ∀ s, imHasKey ((t'', v) :: rest) t s = imHasKey rest t s := by
        intro s
        simp [imHasKey, alookup, htt]
      have hnone' : id = none → imKind rest t ≠ some true := by
        intro hid
        rw [← hkind_eq]
        exact hnone hid
      have hsome' : ∀ s, id = some s →
          imKind rest t ≠ some false ∧ imHasKey rest t s = false := by
        intro s hid
        exact ⟨hkind_eq ▸ (hsome s hid).1, (hkey_eq s) ▸ (hsome s hid).2⟩
      obtain ⟨r', hr, hsum, hkinds, hkeys⟩ := ih hnone' hsome'
      refine ⟨(t'', v) :: r', ?_, ?_, ?_, ?_⟩
      · simp [imInsert, htt, hr]
      · simp only [imSum, List.map_cons, List.sum_cons] at hsum ⊢
        omega
      · intro t'
        by_cases ht2 : t' = t''
        · subst ht2
          have ht3 : ¬ t' = t := fun h => htt (by rw [h])
          simp [imKind, alookup, ht3, ivKindIsMap]
        · have hL : imKind ((t'', v) :: r') t' = imKind r' t' := by
            simp [imKind, alookup, Ne.symm ht2]
          have hR : imKind ((t'', v) :: rest) t' = imKind rest t' := by
            simp [imKind, alookup, Ne.symm ht2]
          rw [hL, hR, hkinds t']
      · intro t' s'
        by_cases ht2 : t' = t''
        · subst ht2
          have ht3 : ¬ t' = t := fun h => htt (by rw [h])
          simp [imHasKey, alookup, ht3]
        · have hL : imHasKey ((t'', v) :: r') t' s' = imHasKey r' t' s' := by
            simp [imHasKey, alookup, Ne.symm ht2]
          have hR : imHasKey ((t'', v) :: rest) t' s' = imHasKey rest t' s' := by
            simp [imHasKey, alookup, Ne.symm ht2]
          rw [hL, hR, hkeys t' s']

theorem foldRows_spec (rows : List (Tag × Option String × IndexRow)) :
    ∀ (m : List (Tag × IndexValue)),
    (∀ e ∈ rows, rowInsOk m e) → rows.Pairwise rowsCompat →
    ∃ m', rows.foldlM (fun mm e => imInsert mm e.1 e.2.1 e.2.2) m = some m'
      ∧ imSum m' = imSum m + (rows.map (fun e => e.2.2.length)).sum := by
  induction rows with
  | nil =>
    intro m _ _
    exact ⟨m, rfl, by simp⟩
  | cons e rest ih =>
    intro m hok hpw
    have hoke := hok e (List.mem_cons_self e rest)
    obtain ⟨m₁, hins, hsum₁, hkinds, hkeys⟩ :=
      imInsert_spec m e.1 e.2.1 e.2.2 hoke.1 hoke.2
    have hpwc := List.pairwise_cons.mp hpw
    have hok' : ∀ e' ∈ rest, rowInsOk m₁ e' := by
      intro e' he'
      have hcompat := hpwc.1 e' he'
      have hoke' := hok e' (List.mem_cons_of_mem e he')
      constructor
      · intro hid
        rw [hkinds e'.1]
        by_cases h : e'.1 = e.1
        · rw [if_pos h]
          have hiso := hcompat.1 h.symm
          rw [hid] at hiso
          simp at hiso
          simp [hiso]
        · rw [if_neg h]
          exact hoke'.1 hid
      · intro s hid
        constructor
        · rw [hkinds e'.1]
          by_cases h : e'.1 = e.1
          · rw [if_pos h]
            have hiso := hcompat.1 h.symm
            rw [hid] at hiso
            simp at hiso
            simp [hiso]
          · rw [if_neg h]
            exact (hoke'.2 s hid).1
        · rw [hkeys e'.1 s]
          have h1 : imHasKey m e'.1 s = false := (hoke'.2 s hid).2
          rw [h1]
          by_cases h : e'.1 = e.1
          · by_cases h2 : e.2.1 = some s
            · exfalso
              have := hcompat.2 h.symm (by rw [hid, h2])
              rw [h2] at this
              simp at this
            · simp [h, h2]
          · simp [h]
    obtain ⟨m₂, hfold, hsum₂⟩ := ih m₁ hok' hpwc.2
    refine ⟨m₂, ?_, ?_⟩
    · rw [List.foldlM_cons, hins]
      exact hfold
    · rw [hsum₂, hsum₁]
      simp
      omega

theorem rowInsOk_nil (e : Tag × Option String × IndexRow) : rowInsOk [] e := by
  constructor
  · intro _
    simp [imKind, alookup]
  · intro s _
    simp [imKind, imHasKey, alookup]

theorem indexRowsOf_single (a : Tag × Option String × Nat) (fs : Nat) :
    indexRowsOf [a] fs = [(a.1, a.2.1, mkIndexRow a.1 a.2.1 a.2.2 fs)] := by
  simp [indexRowsOf]

theorem indexRowsOf_cons_cons (a b : Tag × Option String × Nat)
    (ms : List (Tag × Option String × Nat)) (fs : Nat) :
    indexRowsOf (a :: b :: ms) fs
      = (a.1, a.2.1, mkIndexRow a.1 a.2.1 a.2.2 b.2.2) :: indexRowsOf (b :: ms) fs := by
  simp [indexRowsOf]

theorem indexRowsOf_keys (ms : List (Tag × Option String × Nat)) (fs : Nat) :
    (indexRowsOf ms fs).map (fun e => (e.1, e.2.1)) = ms.map (fun e => (e.1, e.2.1)) := by
  induction ms with
  | nil => rfl
  | cons a tail ih =>
    cases tail with
    | nil => simp [indexRowsOf_single]
    | cons b ms2 =>
      rw [indexRowsOf_cons_cons]
      simp only [List.map_cons]
      rw [ih]
      rfl

theorem indexRowsOf_sum (ms : List (Tag × Option String × Nat))
    (a : Tag × Option String × Nat) (fs : Nat) :
    List.Chain' (fun x y => x.2.2 ≤ y.2.2) (a :: ms) →
    (∀ x, (a :: ms).getLast? = some x → x.2.2 ≤ fs) →
    ((indexRowsOf (a :: ms) fs).map (fun e => e.2.2.length)).sum = fs - a.2.2
      ∧ a.2.2 ≤ fs := by
  induction ms generalizing a with
  | nil =>
    intro _ hlast
    have ha := hlast a rfl
    refine ⟨?_, ha⟩
    simp [indexRowsOf_single, mkIndexRow]
  | cons b ms2 ih =>
    intro hchain hlast
    have hab : a.2.2 ≤ b.2.2 := (List.chain'_cons.mp hchain).1
    have hrest := ih b (List.chain'_cons.mp hchain).2
      (fun x hx => hlast x (by rw [List.getLast?_cons_cons]; exact hx))
    obtain ⟨hsum, hble⟩ := hrest
    constructor
    · rw [indexRowsOf_cons_cons]
      simp only [List.map_cons, List.sum_cons, hsum, mkIndexRow]
      omega
    · omega

theorem parse_binary_sub_oob (cd : CrashDump) (p0 p1 p2 : String) (a off sz len : Nat)
    (hc0 : ':' ∉ p0.data) (hc1 : ':' ∉ p1.data) (hc2 : ':' ∉ p2.data)
    (hp0 : parseHexR p0 = .ok a) (hp1 : parseHexR p1 = .ok off)
    (hp2 : parseHexR p2 = .ok sz)
    (hfound : alookup cd.visited_binaries (toHexUpper a) = some len)
    (hoob : len < off + sz) :
    parse_binary cd ("Ys" ++ p0 ++ ":" ++ p1 ++ ":" ++ p2)
      = .err ("Sub binary out of bounds: start=" ++ toString off ++ ", end="
              ++ toString (off + sz) ++ ", len=" ++ toString len) := by
  have hdata : (("Ys" ++ p0 ++ ":" ++ p1 ++ ":" ++ p2) : String).data
      = 'Y' :: 's' :: (p0.data ++ ':' :: (p1.data ++ ':' :: p2.data)) := by
    show ("Ys".data ++ p0.data ++ ":".data ++ p1.data ++ ":".data ++ p2.data) = _
    simp
  rw [parse_binary, hdata]
  have hsplit : chSplitAll ':' (p0.data ++ ':' :: (p1.data ++ ':' :: p2.data))
      = [p0.data, p1.data, p2.data] := by
    rw [chSplitAll_append _ _ _ hc0, chSplitAll_append _ _ _ hc1,
        chSplitAll_no_sep _ _ hc2]
  simp only [hsplit]
  simp only [List.map_cons, List.map_nil, asString_data]
  simp only [hp0, hp1, hp2, hfound]
  simp [hoob]

theorem parse_datatype_dispatch_Y (cd : CrashDump) (data : String) (rest : List Char)
    (hd : data.data = 'Y' :: rest) :
    cd.parse_datatype data 0 = parse_binary cd data := by
  unfold CrashDump.parse_datatype
  have hg : MAX_DEPTH_PARSE_DATATYPE + 2
      - min 0 (MAX_DEPTH_PARSE_DATATYPE + 1) = 7 := by decide
  rw [hg]
  show parse_datatypeF cd (6 + 1) data 0 = _
  rw [parse_datatypeF]
  rw [if_neg (by decide)]
  simp only [hd]
  simp

/-! Claim theorems. -/

/-- Claim C1, counterexample. On the spec's own scenario (p1 named
root, p2 spawned by p1, p3 spawned by p2) the aggregator attributes p2
to p1 and p3 to p2: the group of p1 has children exactly p2 - it
contains neither p3 nor p1 itself - because the upward walk stops at
the first ancestor whose name field is Some, and the decoder stores
Some for every process (the empty string when the dump names none). -/
theorem c1_counterexample :
    create_descendants_table ancestryExTable 10
      = some [("p1", ["p2"]), ("p2", ["p3"])]
    ∧ ¬ ("p3" ∈ ["p2"]) ∧ ¬ ("p1" ∈ ["p2"]) := by decide

/-- Claim C1, amended. When every table entry is a decoded ProcInfo
(hence carries Some as its name, as ProcInfo::from_generic_section
always produces), the ancestry walk of create_descendants_table stops
immediately and every process with a non-null spawned_by is attributed
to its direct parent pid, present in the table or not; the root is not
inserted into its own children list. -/
theorem c1_amended (table : List (String × InfoOrIndex ProcInfo))
    (h : ∀ e ∈ table, isNamedInfo e.2 = true) (fuel : Nat) :
    create_descendants_table table (fuel + 1) = some (directParentTable table) :=
  cdt_go table h fuel table [] (fun _ hx => hx)

/-- Claim C1, witness for the amended theorem at the spec's scenario. -/
theorem c1_witness :
    create_descendants_table ancestryExTable 1
      = some (directParentTable ancestryExTable) :=
  c1_amended ancestryExTable (by decide) 0

/-- Claim C2, counterexample. Decoding the term I5 at depth equal to
MAX_DEPTH_PARSE_DATATYPE (five) does not stop at the guard: the guard
fires only for depth strictly greater than the cap, so the rendering is
the decoded integer and carries no truncation marker at all, not
exactly one as claimed. -/
theorem c2_counterexample :
    (CrashDump.mk [] []).parse_datatype "I5" 5 = .ok "5"
    ∧ countSubstr "5" "(*" = 0 := by decide

/-- Claim C2, amended. For every address map, binary index, input and
depth strictly greater than MAX_DEPTH_PARSE_DATATYPE, parse_datatype
returns immediately - recursing into nothing - with the rendering that
wraps the raw input in the single truncation marker; together with the
totality of parse_datatype (its recursion is structurally bounded by
the depth cap) this is what bounds decoding on cyclic heap graphs. -/
theorem c2_amended (cd : CrashDump) (data : String) (depth : Nat)
    (h : MAX_DEPTH_PARSE_DATATYPE < depth) :
    cd.parse_datatype data depth = .ok ("(*" ++ data ++ ")") := by
  unfold CrashDump.parse_datatype
  have hg : MAX_DEPTH_PARSE_DATATYPE + 2
      - min depth (MAX_DEPTH_PARSE_DATATYPE + 1) = 1 := by
    unfold MAX_DEPTH_PARSE_DATATYPE at *
    omega
  rw [hg]
  show parse_datatypeF cd (0 + 1) data depth = _
  rw [parse_datatypeF]
  rw [if_pos h]

/-- Claim C2, witness: the amended theorem applied on the cyclic
address map of the spec's scenario at depth six, plus the evaluation of
the same cyclic input from depth zero, which terminates with exactly
the marker after the chain of heap dereferences exceeds the cap. -/
theorem c2_witness :
    (CrashDump.mk [("A", "HB"), ("B", "HC"), ("C", "HA")] []).parse_datatype "HA" 6
      = .ok "(*HA)"
    ∧ (CrashDump.mk [("A", "HB"), ("B", "HC"), ("C", "HA")] []).parse_datatype "HA" 0
      = .ok "(*HA)" :=
  ⟨c2_amended (CrashDump.mk [("A", "HB"), ("B", "HC"), ("C", "HA")] []) "HA" 6
      (by decide),
   by decide⟩

/-- Claim C3, counterexample. A memory section whose typed decoder
fails - here the kv map lacks the processes key - is not downgraded to
a GenericSection: MemoryInfo::from_generic_section indexes the map and
unwraps the parses, so parse_section aborts with a panic. -/
theorem c3_counterexample :
    parse_section "=memory\ntotal: 100" = .panic := by decide

/-- Claim C3, amended. parse_section yields the GenericSection exactly
for the tags that have no typed decoder: whenever the section text
parses to a GenericSection whose tag maps to an enum value other than
Preamble, Memory, Proc, ProcStack and ProcMessages, the result is the
Generic variant preserving the parsed kv pairs and raw lines. Typed
decoder failures panic instead of downgrading. -/
theorem c3_amended (s : String) (gs : GenericSection) (t : Tag)
    (h1 : GenericSection.fromStr s = .ok gs)
    (h2 : string_tag_to_enum gs.tag = some t)
    (h3 : t ≠ Tag.Preamble ∧ t ≠ Tag.Memory ∧ t ≠ Tag.Proc ∧
          t ≠ Tag.ProcStack ∧ t ≠ Tag.ProcMessages) :
    parse_section s = .ok (.Generic gs) := by
  obtain ⟨h3a, h3b, h3c, h3d, h3e⟩ := h3
  unfold parse_section
  rw [h1]
  simp only [h2]

/-- Claim C3, witness for the amended theorem on a literals section. -/
theorem c3_witness :
    parse_section "=literals\nFF:I1"
      = .ok (.Generic ⟨"literals", none, [], ["FF:I1"]⟩) :=
  c3_amended "=literals\nFF:I1" ⟨"literals", none, [], ["FF:I1"]⟩ Tag.Literals
    rfl (by decide) (by decide)

/-- Claim C4, counterexample. On the spec's own scenario - BinaryIndex
binding ABCD to four bytes, input YsABCD:2:8 - the decoder does not
return successfully with an out-of-bounds rendering: the sub-binary
branch of parse_binary returns an Err carrying the out-of-bounds text,
which parse_datatype propagates. -/
theorem c4_counterexample :
    (CrashDump.mk [] [("ABCD", 4)]).parse_datatype "YsABCD:2:8" 0
      = .err "Sub binary out of bounds: start=2, end=10, len=4" := by decide

/-- Claim C4, amended. For every sub-binary descriptor whose address
resolves in the binary index with offset plus size exceeding the parent
length, the decoder returns an Err result whose message is the
out-of-bounds marker carrying start, end and parent length; it neither
panics nor pollutes any Ok rendering. -/
theorem c4_amended (cd : CrashDump) (p0 p1 p2 : String) (a off sz len : Nat)
    (hc0 : ':' ∉ p0.data) (hc1 : ':' ∉ p1.data) (hc2 : ':' ∉ p2.data)
    (hp0 : parseHexR p0 = .ok a) (hp1 : parseHexR p1 = .ok off)
    (hp2 : parseHexR p2 = .ok sz)
    (hfound : alookup cd.visited_binaries (toHexUpper a) = some len)
    (hoob : len < off + sz) :
    cd.parse_datatype ("Ys" ++ p0 ++ ":" ++ p1 ++ ":" ++ p2) 0
      = .err ("Sub binary out of bounds: start=" ++ toString off ++ ", end="
              ++ toString (off + sz) ++ ", len=" ++ toString len) := by
  have hdata : (("Ys" ++ p0 ++ ":" ++ p1 ++ ":" ++ p2) : String).data
      = 'Y' :: 's' :: (p0.data ++ ':' :: (p1.data ++ ':' :: p2.data)) := by
    show ("Ys".data ++ p0.data ++ ":".data ++ p1.data ++ ":".data ++ p2.data) = _
    simp
  rw [parse_datatype_dispatch_Y cd _ _ hdata]
  exact parse_binary_sub_oob cd p0 p1 p2 a off sz len hc0 hc1 hc2 hp0 hp1 hp2
    hfound hoob

/-- Claim C4, witness for the amended theorem at a second concrete
out-of-bounds descriptor. -/
theorem c4_witness :
    (CrashDump.mk [] [("ABCD", 4)]).parse_datatype "YsABCD:3:8" 0
      = .err ("Sub binary out of bounds: start=" ++ toString 3 ++ ", end="
              ++ toString (3 + 8) ++ ", len=" ++ toString 4) :=
  c4_amended (CrashDump.mk [] [("ABCD", 4)]) "ABCD" "3" "8" 43981 3 8 4
    (by decide) (by decide) (by decide) (by decide) (by decide) (by decide)
    (by decide) (by decide)

/-- Claim C5. Evaluation of the code at the failing input of the claim:
decoding lI5|HFF01|N at depth zero under the address map binding FF01
to I7 renders the bracket text with a trailing separator and an empty
slot for the nil tail - the nil tail decodes to the empty string but
still occupies a joined position - so the rendering is not the claimed
one without it. -/
theorem c5_eval :
    (CrashDump.mk [("FF01", "I7")] []).parse_datatype "lI5|HFF01|N" 0
      = .ok "[5, 7, ]"
    ∧ (CrashDump.mk [("FF01", "I7")] []).parse_datatype "lI5|HFF01|N" 0
      ≠ .ok "[5, 7]" := by decide

/-- Claim C6, counterexample. The message queue is a HashMap keyed by
address, not an ordered map: two raw lines carrying the same address
collapse to the single last binding, so the decoded queue cannot
reproduce the file order of the lines. -/
theorem c6_counterexample :
    ProcMessagesInfo.from_generic_section msgsExSec
      = .ok ⟨"<0.1.0>", [("A", "I2")]⟩
    ∧ ¬ (("A", "I1") ∈ [("A", "I2")]) := by decide

/-- Claim C6, amended. For every proc_messages section with an id, the
decoder succeeds and its message map binds each address to the value of
the last raw line of the section carrying that address (lines without a
colon are skipped); later lines overwrite earlier ones with the same
address and no ordering of the map is guaranteed. -/
theorem c6_amended (sec : GenericSection) (p addr : String)
    (h1 : sec.tag = TAG_PROC_MESSAGES) (h2 : sec.id = some p) :
    ∃ info, ProcMessagesInfo.from_generic_section sec = .ok info ∧ info.pid = p ∧
      alookup info.messages addr
        = lastMatch addr (sec.raw_lines.filterMap (fun line => splitn2Str line ":")) := by
  refine ⟨⟨p, mkMessages sec.raw_lines⟩, ?_, rfl, ?_⟩
  · unfold ProcMessagesInfo.from_generic_section
    rw [h2]
    simp [h1]
  · unfold mkMessages
    rw [mkMessages_alookup]
    cases lastMatch addr (sec.raw_lines.filterMap (fun line => splitn2Str line ":")) <;>
      simp [alookup]

/-- Claim C6, witness for the amended theorem on a section with a
duplicated address. -/
theorem c6_witness :
    ∃ info, ProcMessagesInfo.from_generic_section msgsWitSec = .ok info
      ∧ info.pid = "<0.1.0>"
      ∧ alookup info.messages "A"
          = lastMatch "A"
              (msgsWitSec.raw_lines.filterMap (fun line => splitn2Str line ":")) :=
  c6_amended msgsWitSec "<0.1.0>" "A" rfl rfl

/-- Claim C7, counterexample. A scanned header line whose tag is not in
the closed enumeration aborts the scan: string_tag_to_enum runs the
unreachable macro, a panic, and no entry bucketed under any other kind
is produced. -/
theorem c7_counterexample :
    IndexSink.matched "=foobar\n" 0 = .panic := by decide

/-- Claim C7, amended. The scanner sink continues - returning the
pushed triple of tag, trimmed id and byte offset - exactly for header
lines whose extracted tag is one of the known tag strings; an unknown
tag panics instead of being preserved under an other bucket (the Tag
enumeration has no such bucket). -/
theorem c7_amended (line : String) (off : Nat) (t : Tag)
    (hpref : rsStartsWith line "=" = true)
    (ht : string_tag_to_enum (extractTag line) = some t) :
    IndexSink.matched line off = .ok (some (t, extractId line, off)) := by
  unfold IndexSink.matched
  rw [hpref, ht]
  simp

/-- Claim C7, witness for the amended theorem on the end header. -/
theorem c7_witness :
    IndexSink.matched "=end\n" 0 = .ok (some (Tag.End, none, 0)) :=
  c7_amended "=end\n" 0 Tag.End (by decide) (by decide)

/-- Claim C8, counterexample. The lengths of the index rows telescope
to the file length minus the offset of the first header, so a dump
whose first scanner match is not at byte zero - here a single header at
offset five in a ten byte file - yields an index whose summed lengths
differ from the file length. -/
theorem c8_counterexample :
    (build_index [(Tag.Preamble, some "0.5", 5)] 10).map imSum ≠ some 10 := by decide

/-- Claim C8, amended. Entry lengths are consecutive-offset differences
with the last entry extending to the end of the file, and the summed
lengths of all index entries equal the file length provided the first
header is at offset zero, the offsets are nondecreasing with the last
at most the file length, every tag is used consistently keyed or
unkeyed, and no two keyed headers share tag and id (a keyed collision
silently drops the overwritten row from the sum, and a mixed tag
panics). -/
theorem c8_amended (a : Tag × Option String × Nat)
    (ms : List (Tag × Option String × Nat)) (fileSize : Nat)
    (h0 : a.2.2 = 0)
    (hsort : List.Chain' (fun x y => x.2.2 ≤ y.2.2) (a :: ms))
    (hlast : (((a :: ms).getLast?.map (fun x => x.2.2)).getD 0) ≤ fileSize)
    (hpw : ((a :: ms).map (fun e => (e.1, e.2.1))).Pairwise
      (fun x y => (x.1 = y.1 → x.2.isSome = y.2.isSome)
                ∧ (x.1 = y.1 → x.2 = y.2 → x.2 = none))) :
    ∃ im, build_index (a :: ms) fileSize = some im ∧ imSum im = fileSize := by
  have hlast' : ∀ x, (a :: ms).getLast? = some x → x.2.2 ≤ fileSize := by
    intro x hx
    rw [hx] at hlast
    simpa using hlast
  obtain ⟨hsum, _⟩ := indexRowsOf_sum ms a fileSize hsort hlast'
  have hpw_rows : (indexRowsOf (a :: ms) fileSize).Pairwise rowsCompat := by
    have h1 : ((indexRowsOf (a :: ms) fileSize).map (fun e => (e.1, e.2.1))).Pairwise
        (fun x y => (x.1 = y.1 → x.2.isSome = y.2.isSome)
                  ∧ (x.1 = y.1 → x.2 = y.2 → x.2 = none)) := by
      rw [indexRowsOf_keys]
      exact hpw
    exact List.Pairwise.of_map (fun e => (e.1, e.2.1)) (fun x y h => h) h1
  obtain ⟨im, hfold, hs⟩ := foldRows_spec (indexRowsOf (a :: ms) fileSize) []
    (fun e _ => rowInsOk_nil e) hpw_rows
  refine ⟨im, hfold, ?_⟩
  rw [hs, hsum, h0]
  simp [imSum]

/-- Claim C8, witness for the amended theorem on a three-section file
of thirty bytes. -/
theorem c8_witness :
    ∃ im, build_index
        [(Tag.Preamble, some "0.5", 0), (Tag.Proc, some "<0.1.0>", 10),
         (Tag.End, none, 20)] 30 = some im
      ∧ imSum im = 30 :=
  c8_amended (Tag.Preamble, some "0.5", 0)
    [(Tag.Proc, some "<0.1.0>", 10), (Tag.End, none, 20)] 30
    rfl (by simp [List.chain'_cons]) (by decide) (by decide)

/-- Claim C9. For every generic section, the ProcInfo produced by the
decoder satisfies the derived invariant: its total_bin_vheap equals
bin_vheap plus old_bin_vheap, established by the assignment after
construction; every record that can reach the process collection comes
from this decoder. -/
theorem c9_total_bin_vheap (sec : GenericSection) :
    (ProcInfo.from_generic_section sec).total_bin_vheap
      = (ProcInfo.from_generic_section sec).bin_vheap
        + (ProcInfo.from_generic_section sec).old_bin_vheap := rfl

/-- Claim C10. The name field of every ProcInfo produced by the Proc
section decoder is Some of the Name value of the kv map defaulted to
the empty string - never None - so a consumer testing name.isSome sees
every process as named, including those whose dump omits the Name
line. -/
theorem c10_name_always_some (sec : GenericSection) :
    (ProcInfo.from_generic_section sec).name
      = some ((alookup sec.data "Name").getD "") := rfl

end CDV
